import Mathlib

/-!
Verification of the product-lookup pipeline of `smart.py`
(yogendra-rathore/nimble-products-scripts).

The embedding models the pipeline's pure decision logic.  External
effects are passed in as explicit oracles:

* the primary provider (Go-UPC) is a function `Nat → GoWire` giving the
  HTTP-level outcome of each numbered request attempt;
* the secondary provider (Open Food Facts) is a function
  `String → OffWire` giving the outcome of the single request made for
  an identifier;
* Pillow's WebP-decode / PNG-encode round trip is a function
  `List Nat → List Nat` on raw bytes.

Absent JSON fields are represented as the empty string, matching the
`dict.get(key, '')` defaults and the Python truthiness tests used by
the source.  `sys.exit` inside the processing loop is modelled by
`Except.error` (a `SystemExit` escapes the `except HTTPError` handler
of `process_all` and the `except Exception` handler of `main`).
-/

/-- Configuration constant MAX_RETRIES of smart.py (line 49). -/
def MAX_RETRIES : Nat := 5

/-- Configuration constant INITIAL_WAIT of smart.py (line 50): the first
backoff delay in time units. -/
def INITIAL_WAIT : Nat := 1

/-- Product object of a Go-UPC response body (`name`, `brand`,
`imageUrl`); an absent field is the empty string. -/
structure GoProduct where
  name : String
  brand : String
  imageUrl : String
deriving DecidableEq, Repr

/-- JSON body returned by the Go-UPC endpoint: `{code, product}`. -/
structure GoRecord where
  code : String
  product : GoProduct
deriving DecidableEq, Repr

/-- HTTP-level outcome of one Go-UPC request attempt, as distinguished
by `lookup_upc`: a status code with a JSON body, a `Timeout`, or another
`RequestException` (network error). -/
inductive GoWire where
  | status (code : Nat) (body : GoRecord)
  | timeout
  | netError
deriving DecidableEq, Repr

/-- Terminal outcome of `lookup_upc` for one identifier.
`success` is a returned JSON body; `notFound` is the re-raised 404
`HTTPError`; `httpError` is a re-raised `HTTPError` with another status;
`exhausted` is the `HTTPError("Failed Go-UPC lookup ... after retries")`
raised after the loop (reached on 429 exhaustion, `Timeout`, or a
network error); `authFatal` is the `sys.exit` on 401/403. -/
inductive UpcOutcome where
  | success (d : GoRecord)
  | notFound
  | httpError (code : Nat)
  | exhausted
  | authFatal (code : Nat)
deriving DecidableEq, Repr

/-- Observable trace of one `lookup_upc` call: its terminal result, the
backoff delays slept (in order), and the number of HTTP attempts made. -/
structure FetchTrace where
  result : UpcOutcome
  delays : List Nat
  attempts : Nat
deriving DecidableEq, Repr

/-- Retry loop of `lookup_upc` (smart.py lines 75-103).  Arguments:
remaining attempts, attempt number, current wait, delays slept so far
(reversed), attempts made so far.  On status 429 it sleeps `wait`,
doubles it and retries; otherwise `raise_for_status` classifies the
outcome: 404 re-raised, 401/403 `sys.exit`, other 4xx/5xx re-raised,
and a non-error status returns the JSON body.  `Timeout` and network
errors break out of the loop, reaching the final `raise HTTPError`. -/
def lookupRun (wire : Nat → GoWire) : Nat → Nat → Nat → List Nat → Nat → FetchTrace
  | 0, _, _, ds, n => ⟨UpcOutcome.exhausted, ds.reverse, n⟩
  | r + 1, a, w, ds, n =>
    match wire a with
    | GoWire.timeout => ⟨UpcOutcome.exhausted, ds.reverse, n + 1⟩
    | GoWire.netError => ⟨UpcOutcome.exhausted, ds.reverse, n + 1⟩
    | GoWire.status code body =>
      if code = 429 then lookupRun wire r (a + 1) (w * 2) (w :: ds) (n + 1)
      else if 400 ≤ code ∧ code < 600 then
        if code = 404 then ⟨UpcOutcome.notFound, ds.reverse, n + 1⟩
        else if code = 401 ∨ code = 403 then ⟨UpcOutcome.authFatal code, ds.reverse, n + 1⟩
        else ⟨UpcOutcome.httpError code, ds.reverse, n + 1⟩
      else ⟨UpcOutcome.success body, ds.reverse, n + 1⟩

/-- The `lookup_upc` function of smart.py (lines 72-103), applied to the
per-attempt response oracle of one identifier. -/
def lookup_upc (wire : Nat → GoWire) : FetchTrace :=
  lookupRun wire MAX_RETRIES 1 INITIAL_WAIT [] 0

/-- Product object of an Open Food Facts response
(`product_name`, `brands`, `image_url`); absent fields are empty. -/
structure OffProduct where
  product_name : String
  brands : String
  image_url : String
deriving DecidableEq, Repr

/-- JSON body of the Open Food Facts endpoint:
`{code, status, product}`. -/
structure OffRecord where
  code : String
  status : Nat
  product : OffProduct
deriving DecidableEq, Repr

/-- Outcome of the single OFF request made by `lookup_off`: a parsed
JSON body, a network error, an HTTP error status (`raise_for_status`),
or a malformed response (`resp.json()` raising). -/
inductive OffWire where
  | ok (d : OffRecord)
  | netError
  | httpError (code : Nat)
  | malformed
deriving DecidableEq, Repr

/-- The empty OFF product dictionary `{}`. -/
def emptyOffProduct : OffProduct := ⟨"", "", ""⟩

/-- The `lookup_off` function of smart.py (lines 106-120): a body with
`status == 1` is returned as-is; a not-found status or any caught
exception yields `{'code': upc, 'status': 0, 'product': {}}`. -/
def lookup_off (wire : String → OffWire) (upc : String) : OffRecord :=
  match wire upc with
  | OffWire.ok d => if d.status = 1 then d else ⟨upc, 0, emptyOffProduct⟩
  | _ => ⟨upc, 0, emptyOffProduct⟩

/-- The `process_off` function of smart.py (lines 226-227). -/
def process_off (wire : String → OffWire) (failed : List String) : List OffRecord :=
  failed.map (lookup_off wire)

/-- Python's `str.strip()` on the ASCII whitespace relevant here:
drop whitespace from both ends. -/
def stripWS (s : String) : String :=
  String.mk (((s.data.dropWhile Char.isWhitespace).reverse.dropWhile Char.isWhitespace).reverse)

/-- Terminal `lookup_upc` classification that `process_all` observes for
one identifier. -/
def rowOutcome (wire : String → Nat → GoWire) (u : String) : UpcOutcome :=
  (lookup_upc (wire u)).result

/-- The `process_all` function of smart.py (lines 123-144), over the
list of `barcode` column values.  A row whose stripped barcode is empty
is skipped; a successful lookup appends the JSON body to `records`; an
`HTTPError` (404, other HTTP error, or exhausted retries) appends the
identifier to `failed`; the `sys.exit` on 401/403 escapes the
`except HTTPError` handler and aborts the run (`Except.error`). -/
def process_all (wire : String → Nat → GoWire) : List String → Except Nat (List GoRecord × List String)
  | [] => Except.ok ([], [])
  | row :: rest =>
    if stripWS row = "" then process_all wire rest
    else
      match rowOutcome wire (stripWS row), process_all wire rest with
      | UpcOutcome.authFatal c, _ => Except.error c
      | UpcOutcome.success d, Except.ok (rs, fs) => Except.ok (d :: rs, fs)
      | UpcOutcome.success _, Except.error c => Except.error c
      | UpcOutcome.notFound, Except.ok (rs, fs) => Except.ok (rs, stripWS row :: fs)
      | UpcOutcome.notFound, Except.error c => Except.error c
      | UpcOutcome.httpError _, Except.ok (rs, fs) => Except.ok (rs, stripWS row :: fs)
      | UpcOutcome.httpError _, Except.error c => Except.error c
      | UpcOutcome.exhausted, Except.ok (rs, fs) => Except.ok (rs, stripWS row :: fs)
      | UpcOutcome.exhausted, Except.error c => Except.error c

/-- The non-empty stripped identifiers of the CSV rows: exactly the rows
`process_all` does not skip. -/
def cleanedIds (rows : List String) : List String :=
  (rows.map stripWS).filter (fun u => u != "")

/-- Whether the primary lookup of an identifier succeeds. -/
def resolvedHere (wire : String → Nat → GoWire) (u : String) : Bool :=
  match rowOutcome wire u with
  | UpcOutcome.success _ => true
  | _ => false

/-- The JSON body the primary lookup of an identifier returns (dummy on
non-success, only used on resolved identifiers). -/
def payloadOf (wire : String → Nat → GoWire) (u : String) : GoRecord :=
  match rowOutcome wire u with
  | UpcOutcome.success d => d
  | _ => ⟨"", ⟨"", "", ""⟩⟩

/-- Identifiers whose primary lookup succeeds, in input order. -/
def resolvedIds (wire : String → Nat → GoWire) (rows : List String) : List String :=
  (cleanedIds rows).filter (resolvedHere wire)

/-- Identifiers whose primary lookup raises `HTTPError`, in input order. -/
def failedIds (wire : String → Nat → GoWire) (rows : List String) : List String :=
  (cleanedIds rows).filter (fun u => !(resolvedHere wire u))

/-- Field backfill of `save_to_xlsx` (smart.py lines 156-175): when at
least one of name/brand/imageUrl is falsy, `lookup_off` is queried and
each still-falsy field is replaced by the OFF value when that value is
truthy (`off_prod.get(k, '') or old`).  `off` is the OFF lookup already
composed with its wire oracle. -/
def backfillFields (off : String → OffRecord) (item : GoRecord) : GoProduct :=
  if item.product.name = "" ∨ item.product.brand = "" ∨ item.product.imageUrl = "" then
    { name :=
        if item.product.name = "" then
          (if (off item.code).product.product_name = "" then item.product.name
           else (off item.code).product.product_name)
        else item.product.name
      brand :=
        if item.product.brand = "" then
          (if (off item.code).product.brands = "" then item.product.brand
           else (off item.code).product.brands)
        else item.product.brand
      imageUrl :=
        if item.product.imageUrl = "" then
          (if (off item.code).product.image_url = "" then item.product.imageUrl
           else (off item.code).product.image_url)
        else item.product.imageUrl }
  else item.product

/-- Character class `[A-Za-z0-9 _\-]` of the sanitization regex in
`make_image_filename` (smart.py line 63). -/
def isAllowedChar (c : Char) : Bool :=
  (decide ('A' ≤ c) && decide (c ≤ 'Z')) || (decide ('a' ≤ c) && decide (c ≤ 'z')) ||
    (decide ('0' ≤ c) && decide (c ≤ '9')) || (c == ' ') || (c == '_') || (c == '-')

/-- One step of `re.sub(r'[^A-Za-z0-9 _\-]+', '_', s)`: map each
disallowed character to an underscore (the run collapsing that the `+`
performs is subsumed by the `re.sub(r'_+', '_', ...)` that always
follows in the source). -/
def mapBadChar (c : Char) : Char :=
  if isAllowedChar c then c else '_'

/-- The `re.sub(r'_+', '_', s)` pass: collapse runs of underscores. -/
def collapseU : List Char → List Char
  | [] => []
  | [c] => [c]
  | a :: b :: rest =>
    if a = '_' ∧ b = '_' then collapseU (b :: rest) else a :: collapseU (b :: rest)

/-- Membership in the strip set of `.strip('_ ')`. -/
def isStripChar (c : Char) : Bool :=
  (c == '_') || (c == ' ')

/-- Python `.strip('_ ')`: drop underscores and spaces from both ends. -/
def stripUS (cs : List Char) : List Char :=
  ((cs.dropWhile isStripChar).reverse.dropWhile isStripChar).reverse

/-- The `make_image_filename` function of smart.py (lines 60-69). -/
def make_image_filename (brand pname ext : String) : String :=
  let sb := stripUS (collapseU (brand.data.map mapBadChar))
  let sn := stripUS (collapseU (pname.data.map mapBadChar))
  let fname := stripUS (collapseU (sb ++ ('_' :: sn) ++ ext.data))
  if fname = [] then ("unknown" ++ ext) else String.mk fname

/-- Split a URL-like string on `/` separators. -/
def splitSlash : List Char → List (List Char)
  | [] => [[]]
  | c :: cs =>
    if c = '/' then [] :: splitSlash cs
    else
      match splitSlash cs with
      | [] => [[c]]
      | s :: ss => (c :: s) :: ss

/-- `pathlib.Path(url).name`: the last non-empty `/`-separated segment
(trailing slashes and doubled slashes contribute empty segments, which
pathlib drops). -/
def pathName (cs : List Char) : List Char :=
  ((splitSlash cs).filter (fun s => !(s.isEmpty))).getLastD []

/-- Split a reversed character list at the first dot: `(chars before the
dot, rest beginning with the dot)`. -/
def revSpanDot : List Char → List Char × List Char
  | [] => ([], [])
  | c :: cs =>
    if c = '.' then ([], c :: cs)
    else ((c :: (revSpanDot cs).1), (revSpanDot cs).2)

/-- `pathlib` stem/suffix split of a file name: the suffix is
`name[i:]` for the last dot index `i` when `0 < i < len(name) - 1`,
else empty (so dotfiles and names ending in a dot have no suffix). -/
def extSplit (nm : List Char) : List Char × List Char :=
  match revSpanDot nm.reverse with
  | (_, []) => (nm, [])
  | (a, _ :: b) =>
    if b = [] ∨ a = [] then (nm, [])
    else (b.reverse, '.' :: a.reverse)

/-- `Path(url).suffix` for a URL-like string. -/
def pathSuffix (url : String) : List Char :=
  (extSplit (pathName url.data)).2

/-- `Path(url).suffix.split('?')[0].lower() or '.jpg'`
(smart.py lines 179 and 245). -/
def imgExt (url : String) : String :=
  let e := ((pathSuffix url).takeWhile (fun c => !(c == '?'))).map Char.toLower
  if e = [] then (".jpg") else String.mk e

/-- Characters of the `.png` suffix installed by `with_suffix('.png')`. -/
def pngSuffix : List Char := ['.', 'p', 'n', 'g']

/-- Image download-and-store step of `save_to_xlsx` (lines 178-191) and
`save_off_xlsx` (lines 244-257): compute the extension from the URL,
derive the destination file name, and either re-encode WebP bytes as
PNG under a `.png` name (`pil` is Pillow's open/convert-RGB/save-PNG
round trip) or write the fetched bytes unchanged.  Returns the stored
file name and the stored bytes. -/
def downloadImage (pil : List Nat → List Nat) (brand pname url : String) (raw : List Nat) :
    String × List Nat :=
  let ext := imgExt url
  let fn := make_image_filename brand pname ext
  if ext = ".webp" then (String.mk ((extSplit fn.data).1 ++ pngSuffix), pil raw)
  else (fn, raw)

/-- Concrete Go-UPC body used by example runs. -/
def emptyGoRecord : GoRecord := ⟨"", ⟨"", "", ""⟩⟩

/-- Example oracle: every attempt is rate-limited. -/
def exWire429 : Nat → GoWire := fun _ => GoWire.status 429 emptyGoRecord

/-- Example body resolved on the fourth attempt. -/
def exRec5 : GoRecord := ⟨"5", ⟨"N", "B", "u"⟩⟩

/-- Example oracle: 429 three times, then success. -/
def exWire5 : Nat → GoWire := fun k => if k = 4 then GoWire.status 200 exRec5 else GoWire.status 429 emptyGoRecord

/-- Example oracle: identifier `1` resolves, everything else is 404. -/
def exWire1 : String → Nat → GoWire :=
  fun u _ => if u = "1" then GoWire.status 200 ⟨"1", ⟨"n", "b", "i"⟩⟩ else GoWire.status 404 emptyGoRecord

/-- Example rows for the partition run. -/
def exRows1 : List String := ["1", "2"]

/-- Example oracle: every request is rejected as unauthorized. -/
def exWire401 : String → Nat → GoWire := fun _ _ => GoWire.status 401 emptyGoRecord

/-- Example resolved record with a missing brand. -/
def exItem2 : GoRecord := ⟨"111", ⟨"A", "", "u"⟩⟩

/-- Example OFF lookup answering name `B`, brand `C`. -/
def exOff2 : String → OffRecord := fun u => ⟨u, 1, ⟨"B", "C", "v"⟩⟩

/-- Example OFF oracle that always fails at the network level. -/
def exWireOffDown : String → OffWire := fun _ => OffWire.netError

/-- Example primary oracle that always times out. -/
def exWireDown : String → Nat → GoWire := fun _ _ => GoWire.timeout

/-- Example Pillow round trip used by the image-routing witness. -/
def exPil : List Nat → List Nat := fun l => 9 :: l

/-- Unfolding step of the retry loop on a 429 response: sleep `w`,
double the wait, try again. -/
lemma lookupRun_429_step (wire : Nat → GoWire) (rtot r a w : Nat) (ds : List Nat) (n : Nat)
    (d : GoRecord) (hr : rtot = r + 1) (h : wire a = GoWire.status 429 d) :
    lookupRun wire rtot a w ds n = lookupRun wire r (a + 1) (w * 2) (w :: ds) (n + 1) := by
  subst hr
  simp [lookupRun, h]

/-- Unfolding step of the retry loop on a non-error status: the JSON
body is returned. -/
lemma lookupRun_success_step (wire : Nat → GoWire) (rtot r a w : Nat) (ds : List Nat)
    (n code : Nat) (body : GoRecord) (hr : rtot = r + 1) (h : wire a = GoWire.status code body)
    (hc : code < 400) :
    lookupRun wire rtot a w ds n = ⟨UpcOutcome.success body, ds.reverse, n + 1⟩ := by
  subst hr
  have h1 : ¬ code = 429 := by omega
  have h2 : ¬ (400 ≤ code ∧ code < 600) := by omega
  simp [lookupRun, h, h1, h2]

/-- Unfolding step of the retry loop on a network error: the loop
breaks and the final `HTTPError` is raised. -/
lemma lookupRun_net_step (wire : Nat → GoWire) (rtot r a w : Nat) (ds : List Nat) (n : Nat)
    (hr : rtot = r + 1) (h : wire a = GoWire.netError) :
    lookupRun wire rtot a w ds n = ⟨UpcOutcome.exhausted, ds.reverse, n + 1⟩ := by
  subst hr
  simp [lookupRun, h]

/-- When every attempt is answered 429, the loop consumes all remaining
attempts and ends in the exhausted-retries outcome. -/
lemma lookupRun_always429 (wire : Nat → GoWire)
    (h : ∀ k : Nat, ∃ d : GoRecord, wire k = GoWire.status 429 d) :
    ∀ (r a w : Nat) (ds : List Nat) (n : Nat),
      (lookupRun wire r a w ds n).result = UpcOutcome.exhausted ∧
        (lookupRun wire r a w ds n).attempts = n + r := by
  intro r
  induction r with
  | zero =>
    intro a w ds n
    exact ⟨rfl, rfl⟩
  | succ r ih =>
    intro a w ds n
    obtain ⟨d, hd⟩ := h a
    rw [lookupRun_429_step wire (r + 1) r a w ds n d rfl hd]
    obtain ⟨h1, h2⟩ := ih (a + 1) (w * 2) (w :: ds) (n + 1)
    refine ⟨h1, ?_⟩
    rw [h2]
    omega

/-- The fatal classification is only produced by a 401 or 403 status. -/
lemma lookupRun_authFatal_codes (wire : Nat → GoWire) :
    ∀ (r a w : Nat) (ds : List Nat) (n c : Nat),
      (lookupRun wire r a w ds n).result = UpcOutcome.authFatal c → c = 401 ∨ c = 403 := by
  intro r
  induction r with
  | zero =>
    intro a w ds n c h
    simp [lookupRun] at h
  | succ r ih =>
    intro a w ds n c h
    cases hw : wire a with
    | timeout => simp [lookupRun, hw] at h
    | netError => simp [lookupRun, hw] at h
    | status code body =>
      simp only [lookupRun, hw] at h
      by_cases h429 : code = 429
      · rw [if_pos h429] at h
        exact ih (a + 1) (w * 2) (w :: ds) (n + 1) c h
      · rw [if_neg h429] at h
        by_cases hrange : 400 ≤ code ∧ code < 600
        · rw [if_pos hrange] at h
          by_cases h404 : code = 404
          · rw [if_pos h404] at h
            simp at h
          · rw [if_neg h404] at h
            by_cases hauth : code = 401 ∨ code = 403
            · rw [if_pos hauth] at h
              simp at h
              omega
            · rw [if_neg hauth] at h
              simp at h
        · rw [if_neg hrange] at h
          simp at h

/-- Claim C4: if the primary provider answers rate-limited (HTTP 429)
on every attempt, `lookup_upc` performs exactly MAX_RETRIES (5)
attempts and ends in the exhausted-retries failure — the same generic
`HTTPError` outcome a transient network error produces — which is a
different outcome value than the 404 not-found classification, and in
particular the result is never the not-found one. -/
theorem rate_limited_exhaustion (wire : Nat → GoWire)
    (h : ∀ k : Nat, ∃ d : GoRecord, wire k = GoWire.status 429 d) :
    (lookup_upc wire).attempts = MAX_RETRIES ∧
    (lookup_upc wire).result = UpcOutcome.exhausted ∧
    UpcOutcome.exhausted ≠ UpcOutcome.notFound ∧
    (∀ wire2 : Nat → GoWire, wire2 1 = GoWire.netError →
      (lookup_upc wire2).result = UpcOutcome.exhausted) := by
  obtain ⟨h1, h2⟩ := lookupRun_always429 wire h MAX_RETRIES 1 INITIAL_WAIT [] 0
  refine ⟨?_, h1, by simp, ?_⟩
  · show (lookupRun wire MAX_RETRIES 1 INITIAL_WAIT [] 0).attempts = MAX_RETRIES
    rw [h2]
    omega
  · intro wire2 hw
    have e : lookup_upc wire2 = ⟨UpcOutcome.exhausted, [], 1⟩ :=
      lookupRun_net_step wire2 5 4 1 1 [] 0 rfl hw
    rw [e]

/-- Witness for C4 at the always-429 oracle. -/
theorem rate_limited_exhaustion_witness :
    (lookup_upc exWire429).attempts = MAX_RETRIES ∧
      (lookup_upc exWire429).result = UpcOutcome.exhausted := by
  have h := rate_limited_exhaustion exWire429 (fun _ => ⟨emptyGoRecord, rfl⟩)
  exact ⟨h.1, h.2.1⟩

/-- Claim C5: if the provider answers 429 on the first three attempts
and a success status on the fourth, `lookup_upc` returns the success
payload after exactly three backoff delays of 1, 2 and 4 time units
(doubling from INITIAL_WAIT, no jitter, no cap), in four attempts. -/
theorem retry_backoff_delays (wire : Nat → GoWire) (d1 d2 d3 body : GoRecord) (c4 : Nat)
    (h1 : wire 1 = GoWire.status 429 d1) (h2 : wire 2 = GoWire.status 429 d2)
    (h3 : wire 3 = GoWire.status 429 d3) (h4 : wire 4 = GoWire.status c4 body)
    (hc4 : c4 < 400) :
    lookup_upc wire = ⟨UpcOutcome.success body, [1, 2, 4], 4⟩ := by
  have e0 : lookup_upc wire = lookupRun wire 5 1 1 [] 0 := rfl
  have e1 : lookupRun wire 5 1 1 [] 0 = lookupRun wire 4 2 2 [1] 1 :=
    lookupRun_429_step wire 5 4 1 1 [] 0 d1 rfl h1
  have e2 : lookupRun wire 4 2 2 [1] 1 = lookupRun wire 3 3 4 [2, 1] 2 :=
    lookupRun_429_step wire 4 3 2 2 [1] 1 d2 rfl h2
  have e3 : lookupRun wire 3 3 4 [2, 1] 2 = lookupRun wire 2 4 8 [4, 2, 1] 3 :=
    lookupRun_429_step wire 3 2 3 4 [2, 1] 2 d3 rfl h3
  have e4 : lookupRun wire 2 4 8 [4, 2, 1] 3 = ⟨UpcOutcome.success body, [1, 2, 4], 4⟩ :=
    lookupRun_success_step wire 2 1 4 8 [4, 2, 1] 3 c4 body rfl h4 hc4
  exact e0.trans (e1.trans (e2.trans (e3.trans e4)))

/-- Witness for C5 at a three-429s-then-200 oracle. -/
theorem retry_backoff_delays_witness :
    lookup_upc exWire5 = ⟨UpcOutcome.success exRec5, [1, 2, 4], 4⟩ :=
  retry_backoff_delays exWire5 emptyGoRecord emptyGoRecord emptyGoRecord exRec5 200
    rfl rfl rfl rfl (by omega)

/-- Counting over the two complementary filters of a list adds up to
counting over the list. -/
lemma count_filter_split (l : List String) (p : String → Bool) (u : String) :
    (l.filter p).count u + (l.filter (fun x => !(p x))).count u = l.count u := by
  induction l with
  | nil => simp
  | cons a l ih =>
    by_cases hp : p a
    · simp [List.filter_cons, hp, List.count_cons]
      by_cases hu : a = u <;> simp [hu] <;> omega
    · simp [List.filter_cons, hp, List.count_cons]
      by_cases hu : a = u <;> simp [hu] <;> omega

/-- A row stripping to the empty string contributes no identifier. -/
lemma cleanedIds_cons_skip (row : String) (rest : List String) (h : stripWS row = "") :
    cleanedIds (row :: rest) = cleanedIds rest := by
  simp [cleanedIds, List.filter_cons, h]

/-- A row stripping to a non-empty identifier contributes it. -/
lemma cleanedIds_cons_keep (row : String) (rest : List String) (h : ¬ stripWS row = "") :
    cleanedIds (row :: rest) = stripWS row :: cleanedIds rest := by
  simp [cleanedIds, List.filter_cons, h]

/-- Characterization of a non-fatal `process_all` run: the records are
the payloads of the resolved identifiers in order, and the failed list
is the non-resolved identifiers in order. -/
lemma process_all_ok_spec (wire : String → Nat → GoWire) :
    ∀ (rows : List String) (recs : List GoRecord) (fls : List String),
      process_all wire rows = Except.ok (recs, fls) →
      recs = (resolvedIds wire rows).map (payloadOf wire) ∧ fls = failedIds wire rows := by
  intro rows
  induction rows with
  | nil =>
    intro recs fls h
    simp [process_all] at h
    obtain ⟨h1, h2⟩ := h
    subst h1
    subst h2
    simp [resolvedIds, failedIds, cleanedIds]
  | cons row rest ih =>
    intro recs fls h
    by_cases he : stripWS row = ""
    · rw [process_all, if_pos he] at h
      obtain ⟨h1, h2⟩ := ih recs fls h
      rw [h1, h2]
      constructor
      · simp [resolvedIds, cleanedIds_cons_skip row rest he]
      · simp [failedIds, cleanedIds_cons_skip row rest he]
    · rw [process_all, if_neg he] at h
      cases ho : rowOutcome wire (stripWS row) with
      | authFatal c => rw [ho] at h; simp at h
      | success d =>
        cases hr : process_all wire rest with
        | error c => rw [ho, hr] at h; simp at h
        | ok pr =>
          obtain ⟨rs, fs⟩ := pr
          rw [ho, hr] at h
          simp at h
          obtain ⟨h1, h2⟩ := h
          obtain ⟨ih1, ih2⟩ := ih rs fs hr
          constructor
          · rw [← h1, ih1]
            simp only [resolvedIds]
            rw [cleanedIds_cons_keep row rest he, List.filter_cons]
            simp [resolvedHere, ho, payloadOf]
          · rw [← h2, ih2]
            simp only [failedIds]
            rw [cleanedIds_cons_keep row rest he, List.filter_cons]
            simp [resolvedHere, ho]
      | notFound =>
        cases hr : process_all wire rest with
        | error c => rw [ho, hr] at h; simp at h
        | ok pr =>
          obtain ⟨rs, fs⟩ := pr
          rw [ho, hr] at h
          simp at h
          obtain ⟨h1, h2⟩ := h
          obtain ⟨ih1, ih2⟩ := ih rs fs hr
          constructor
          · rw [← h1, ih1]
            simp only [resolvedIds]
            rw [cleanedIds_cons_keep row rest he, List.filter_cons]
            simp [resolvedHere, ho]
          · rw [← h2, ih2]
            simp only [failedIds]
            rw [cleanedIds_cons_keep row rest he, List.filter_cons]
            simp [resolvedHere, ho]
      | httpError c =>
        cases hr : process_all wire rest with
        | error c2 => rw [ho, hr] at h; simp at h
        | ok pr =>
          obtain ⟨rs, fs⟩ := pr
          rw [ho, hr] at h
          simp at h
          obtain ⟨h1, h2⟩ := h
          obtain ⟨ih1, ih2⟩ := ih rs fs hr
          constructor
          · rw [← h1, ih1]
            simp only [resolvedIds]
            rw [cleanedIds_cons_keep row rest he, List.filter_cons]
            simp [resolvedHere, ho]
          · rw [← h2, ih2]
            simp only [failedIds]
            rw [cleanedIds_cons_keep row rest he, List.filter_cons]
            simp [resolvedHere, ho]
      | exhausted =>
        cases hr : process_all wire rest with
        | error c => rw [ho, hr] at h; simp at h
        | ok pr =>
          obtain ⟨rs, fs⟩ := pr
          rw [ho, hr] at h
          simp at h
          obtain ⟨h1, h2⟩ := h
          obtain ⟨ih1, ih2⟩ := ih rs fs hr
          constructor
          · rw [← h1, ih1]
            simp only [resolvedIds]
            rw [cleanedIds_cons_keep row rest he, List.filter_cons]
            simp [resolvedHere, ho]
          · rw [← h2, ih2]
            simp only [failedIds]
            rw [cleanedIds_cons_keep row rest he, List.filter_cons]
            simp [resolvedHere, ho]

/-- If a prefix of the rows processes cleanly and the continuation
aborts, the whole run aborts with the same exit. -/
lemma process_all_append_error (wire : String → Nat → GoWire) (xs ys : List String) (c : Nat)
    (hy : process_all wire ys = Except.error c) :
    ∀ (rs : List GoRecord) (fs : List String),
      process_all wire xs = Except.ok (rs, fs) →
      process_all wire (xs ++ ys) = Except.error c := by
  induction xs with
  | nil =>
    intro rs fs _
    simpa using hy
  | cons row rest ih =>
    intro rs fs hx
    by_cases he : stripWS row = ""
    · rw [process_all, if_pos he] at hx
      rw [List.cons_append, process_all, if_pos he]
      exact ih rs fs hx
    · rw [process_all, if_neg he] at hx
      rw [List.cons_append, process_all, if_neg he]
      cases ho : rowOutcome wire (stripWS row) with
      | authFatal c2 => rw [ho] at hx; simp at hx
      | success d =>
        cases hr : process_all wire rest with
        | error c2 => rw [ho, hr] at hx; simp at hx
        | ok pr =>
          obtain ⟨rs0, fs0⟩ := pr
          rw [ih rs0 fs0 hr]
      | notFound =>
        cases hr : process_all wire rest with
        | error c2 => rw [ho, hr] at hx; simp at hx
        | ok pr =>
          obtain ⟨rs0, fs0⟩ := pr
          rw [ih rs0 fs0 hr]
      | httpError c2 =>
        cases hr : process_all wire rest with
        | error c3 => rw [ho, hr] at hx; simp at hx
        | ok pr =>
          obtain ⟨rs0, fs0⟩ := pr
          rw [ih rs0 fs0 hr]
      | exhausted =>
        cases hr : process_all wire rest with
        | error c2 => rw [ho, hr] at hx; simp at hx
        | ok pr =>
          obtain ⟨rs0, fs0⟩ := pr
          rw [ih rs0 fs0 hr]

/-- Claim C3: if a primary lookup is classified fatal (the `sys.exit`
taken on an HTTP 401 or 403 status) for some row, and the rows before it
processed without a fatal classification, the entire run halts with a
non-zero-equivalent exit: whatever rows follow, `process_all` yields the
error exit rather than an output, so no further identifier is processed
and the failing identifier is not recorded in the failed list the way
`HTTPError` failures are. -/
theorem auth_failure_halts_run (wire : String → Nat → GoWire) (pre : List String) (r : String)
    (recs : List GoRecord) (fls : List String) (c : Nat)
    (hpre : process_all wire pre = Except.ok (recs, fls))
    (hr : ¬ stripWS r = "")
    (hfatal : rowOutcome wire (stripWS r) = UpcOutcome.authFatal c) :
    (∀ post : List String, process_all wire (pre ++ r :: post) = Except.error c) ∧ c ≠ 0 := by
  constructor
  · intro post
    have hy : process_all wire (r :: post) = Except.error c := by
      rw [process_all, if_neg hr, hfatal]
    exact process_all_append_error wire pre (r :: post) c hy recs fls hpre
  · have := lookupRun_authFatal_codes (wire (stripWS r)) MAX_RETRIES 1 INITIAL_WAIT [] 0 c hfatal
    omega

/-- Witness for C3: an always-401 provider halts a one-row run. -/
theorem auth_failure_halts_run_witness :
    process_all exWire401 (["7"]) = Except.error 401 ∧ (401 : Nat) ≠ 0 := by
  have h := auth_failure_halts_run exWire401 [] ("7") [] [] 401 rfl (by decide) rfl
  exact ⟨h.1 [], h.2⟩

/-- Claim C1: when `process_all` finishes without a fatal (401/403)
classification, its two outputs partition the non-empty identifiers
exactly: the records list has exactly one record per resolved
identifier (in order, each the payload of that identifier's lookup),
the failed list is exactly the non-resolved identifiers, and counting
any identifier over the resolved and failed lists together gives its
multiplicity in the input — nothing lost, nothing duplicated.  The
later fallback stage (`process_off`) keeps the failed list 1-to-1. -/
theorem process_all_partitions_input (wire : String → Nat → GoWire) (rows : List String)
    (records : List GoRecord) (failed : List String)
    (h : process_all wire rows = Except.ok (records, failed)) :
    records = (resolvedIds wire rows).map (payloadOf wire) ∧
    failed = failedIds wire rows ∧
    (∀ u : String,
      (cleanedIds rows).count u = (resolvedIds wire rows).count u + failed.count u) ∧
    (∀ ow : String → OffWire, (process_off ow failed).length = failed.length) := by
  obtain ⟨h1, h2⟩ := process_all_ok_spec wire rows records failed h
  refine ⟨h1, h2, ?_, ?_⟩
  · intro u
    rw [h2]
    have := count_filter_split (cleanedIds rows) (resolvedHere wire) u
    rw [resolvedIds, failedIds]
    omega
  · intro ow
    simp [process_off]

/-- Witness for C1 on a two-row run with one success and one 404. -/
theorem process_all_partitions_input_witness :
    (cleanedIds exRows1).count ("1") =
      (resolvedIds exWire1 exRows1).count ("1") + (failedIds exWire1 exRows1).count ("1") := by
  have h := process_all_partitions_input exWire1 exRows1
    ([⟨"1", ⟨"n", "b", "i"⟩⟩]) (["2"]) (by rfl)
  have hc := h.2.2.1 ("1")
  rw [h.2.1] at hc
  exact hc

/-- Claim C10: a CSV row whose barcode is empty after stripping is
skipped entirely: `process_all` of the row is `process_all` of the
remaining rows, and the row contributes to no output partition
(it is in neither the cleaned, resolved nor failed identifiers). -/
theorem empty_barcode_skipped (wire : String → Nat → GoWire) (row : String) (rest : List String)
    (h : stripWS row = "") :
    process_all wire (row :: rest) = process_all wire rest ∧
    cleanedIds (row :: rest) = cleanedIds rest ∧
    resolvedIds wire (row :: rest) = resolvedIds wire rest ∧
    failedIds wire (row :: rest) = failedIds wire rest := by
  refine ⟨by rw [process_all, if_pos h], cleanedIds_cons_skip row rest h, ?_, ?_⟩
  · rw [resolvedIds, cleanedIds_cons_skip row rest h, resolvedIds]
  · rw [failedIds, cleanedIds_cons_skip row rest h, failedIds]

/-- Witness for C10 on a whitespace-only row. -/
theorem empty_barcode_skipped_witness :
    process_all exWireDown ((" ") :: []) = process_all exWireDown [] ∧
    cleanedIds ((" ") :: []) = cleanedIds [] :=
  ⟨(empty_barcode_skipped exWireDown (" ") [] (by decide)).1,
   (empty_barcode_skipped exWireDown (" ") [] (by decide)).2.1⟩

/-- Claim C2: for a resolved record with at least one of name, brand or
imageUrl absent, the backfill merge keeps every non-empty primary field
unchanged (primary wins) and fills each absent field with the secondary
value exactly when that value is non-empty. -/
theorem backfill_preserves_primary (off : String → OffRecord) (item : GoRecord)
    (hmiss : item.product.name = "" ∨ item.product.brand = "" ∨ item.product.imageUrl = "") :
    (item.product.name ≠ "" → (backfillFields off item).name = item.product.name) ∧
    (item.product.brand ≠ "" → (backfillFields off item).brand = item.product.brand) ∧
    (item.product.imageUrl ≠ "" → (backfillFields off item).imageUrl = item.product.imageUrl) ∧
    (item.product.name = "" → (off item.code).product.product_name ≠ "" →
      (backfillFields off item).name = (off item.code).product.product_name) ∧
    (item.product.brand = "" → (off item.code).product.brands ≠ "" →
      (backfillFields off item).brand = (off item.code).product.brands) ∧
    (item.product.imageUrl = "" → (off item.code).product.image_url ≠ "" →
      (backfillFields off item).imageUrl = (off item.code).product.image_url) := by
  unfold backfillFields
  rw [if_pos hmiss]
  refine ⟨?_, ?_, ?_, ?_, ?_, ?_⟩
  · intro h; simp [h]
  · intro h; simp [h]
  · intro h; simp [h]
  · intro h h2; simp [h, h2]
  · intro h h2; simp [h, h2]
  · intro h h2; simp [h, h2]

/-- Witness for C2 at the spec's example: primary name `A` with absent
brand, secondary name `B` and brand `C`, merged to name `A`, brand `C`
(the present image URL `u` also stays). -/
theorem backfill_preserves_primary_witness :
    (backfillFields exOff2 exItem2).name = ("A") ∧
    (backfillFields exOff2 exItem2).brand = ("C") ∧
    (backfillFields exOff2 exItem2).imageUrl = ("u") := by
  have h := backfill_preserves_primary exOff2 exItem2 (Or.inr (Or.inl rfl))
  exact ⟨h.1 (by decide), h.2.2.2.2.1 rfl (by decide), h.2.2.1 (by decide)⟩

/-- Claim C6: `lookup_off` absorbs every secondary-provider failure —
network error, HTTP error, malformed response, or a body whose status
is not 1 — into the not-found record with status 0 and an empty
product (it is a total function, so no exception escapes this
boundary), and backfilling against such a response leaves a record's
already-absent fields absent. -/
theorem lookup_off_absorbs_failures (wire : String → OffWire) (upc : String)
    (h : ∀ d : OffRecord, wire upc = OffWire.ok d → d.status ≠ 1) :
    lookup_off wire upc = ⟨upc, 0, emptyOffProduct⟩ ∧
    (∀ item : GoRecord, item.code = upc → item.product.name = "" →
      (backfillFields (lookup_off wire) item).name = "") ∧
    (∀ item : GoRecord, item.code = upc → item.product.brand = "" →
      (backfillFields (lookup_off wire) item).brand = "") ∧
    (∀ item : GoRecord, item.code = upc → item.product.imageUrl = "" →
      (backfillFields (lookup_off wire) item).imageUrl = "") := by
  have h0 : lookup_off wire upc = ⟨upc, 0, emptyOffProduct⟩ := by
    unfold lookup_off
    cases hw : wire upc with
    | ok d => simp [h d hw]
    | netError => simp
    | httpError c => simp
    | malformed => simp
  refine ⟨h0, ?_, ?_, ?_⟩
  · intro item hc hn
    unfold backfillFields
    rw [if_pos (Or.inl hn)]
    simp [hn, hc, h0, emptyOffProduct]
  · intro item hc hb
    unfold backfillFields
    rw [if_pos (Or.inr (Or.inl hb))]
    simp [hb, hc, h0, emptyOffProduct]
  · intro item hc hu
    unfold backfillFields
    rw [if_pos (Or.inr (Or.inr hu))]
    simp [hu, hc, h0, emptyOffProduct]

/-- Witness for C6 at a network-down secondary provider. -/
theorem lookup_off_absorbs_failures_witness :
    lookup_off exWireOffDown ("999") = ⟨("999"), 0, emptyOffProduct⟩ := by
  have h := lookup_off_absorbs_failures exWireOffDown ("999")
    (fun d hd => by simp [exWireOffDown] at hd)
  exact h.1

/-- Counterexample to claim C7 as stated: the claimed stem
`Ben_Jerry_s_Choc_Mint` is not produced, because the space character is
inside the allowed class `[A-Za-z0-9 _-]` and is therefore preserved by
the sanitization. -/
theorem make_image_filename_spaces_counterexample :
    make_image_filename ("Ben & Jerry\x27s!") ("Choc/Mint") (".jpg") ≠ ("Ben_Jerry_s_Choc_Mint.jpg") := by
  decide

/-- Claim C7 (amended): sanitizing brand `Ben & Jerry's!` and name
`Choc/Mint` replaces each run of characters outside `[A-Za-z0-9 _-]`
with one underscore and trims leading/trailing underscores and spaces,
but keeps interior spaces (they are inside the allowed class), so the
filename stem is `Ben _ Jerry_s_Choc_Mint`. -/
theorem make_image_filename_spaces_amended :
    make_image_filename ("Ben & Jerry\x27s!") ("Choc/Mint") (".jpg") = ("Ben _ Jerry_s_Choc_Mint.jpg") := by
  decide

/-- Counterexample to claim C8 as stated: with both brand and name
empty and extension `.jpg`, the joined filename `_.jpg` strips to the
non-empty `.jpg`, which is truthy, so the `unknown` fallback is not
used and the result is not `unknown.jpg`. -/
theorem make_image_filename_fallback_counterexample :
    make_image_filename ("") ("") (".jpg") = (".jpg") ∧
      make_image_filename ("") ("") (".jpg") ≠ ("unknown.jpg") := by
  decide

/-- Claim C8 (amended): with both brand and name empty,
`make_image_filename` returns `'_' + ext` with underscore runs
collapsed and leading/trailing underscores and spaces stripped whenever
that string is non-empty (for a normal extension such as `.jpg` this is
just the extension), and returns the fallback `unknown + ext` only when
that string strips to empty — in particular `unknown` for the empty
extension. -/
theorem make_image_filename_empty_amended :
    (∀ ext : String,
      make_image_filename ("") ("") ext =
        (if stripUS (collapseU ('_' :: ext.data)) = [] then ("unknown" ++ ext)
         else String.mk (stripUS (collapseU ('_' :: ext.data))))) ∧
    make_image_filename ("") ("") ("") = ("unknown") := by
  constructor
  · intro ext
    rfl
  · decide

/-- A derived image file name is never the empty string (the `unknown`
fallback guarantees this). -/
lemma make_image_filename_data_ne (b n e : String) : (make_image_filename b n e).data ≠ [] := by
  by_cases h : stripUS (collapseU (stripUS (collapseU (List.map mapBadChar b.data)) ++
      '_' :: (stripUS (collapseU (List.map mapBadChar n.data)) ++ e.data))) = []
  · simp [make_image_filename, h, String.data_append]
  · simp [make_image_filename, h]

/-- The stem of a non-empty file name is non-empty. -/
lemma extSplit_fst_ne (nm : List Char) (h : nm ≠ []) : (extSplit nm).1 ≠ [] := by
  unfold extSplit
  rcases hsp : revSpanDot nm.reverse with ⟨a, rest⟩
  cases rest with
  | nil => exact h
  | cons x b =>
    dsimp only
    by_cases hb : b = [] ∨ a = []
    · rw [if_pos hb]
      exact h
    · rw [if_neg hb]
      push_neg at hb
      simp [hb.1]

/-- Appending `.png` to a non-empty stem yields a name whose pathlib
suffix is exactly `.png`. -/
lemma extSplit_append_png (stem : List Char) (h : stem ≠ []) :
    extSplit (stem ++ pngSuffix) = (stem, pngSuffix) := by
  have hrev : (stem ++ pngSuffix).reverse = 'g' :: 'n' :: 'p' :: '.' :: stem.reverse := by
    simp [pngSuffix]
  have hspan : revSpanDot ((stem ++ pngSuffix).reverse) = (['g', 'n', 'p'], '.' :: stem.reverse) := by
    rw [hrev]
    simp [revSpanDot]
  unfold extSplit
  rw [hspan]
  dsimp only
  have hb : ¬ (stem.reverse = [] ∨ (['g', 'n', 'p'] : List Char) = []) := by
    simp [h]
  rw [if_neg hb]
  simp [pngSuffix]

/-- Claim C9: the image store step routes on the URL-derived extension
(the URL path suffix lowercased and query-stripped, defaulting to
`.jpg` when the URL has no suffix): a `.webp` extension stores the
Pillow decode/re-encode of the fetched bytes under a name whose suffix
is `.png`, while any other extension stores the fetched bytes
byte-for-byte unchanged under the derived file name. -/
theorem image_persistence_routing (pil : List Nat → List Nat) (brand pname url : String)
    (raw : List Nat) :
    (imgExt url = (".webp") →
      (downloadImage pil brand pname url raw).2 = pil raw ∧
      (extSplit (downloadImage pil brand pname url raw).1.data).2 = pngSuffix) ∧
    (imgExt url ≠ (".webp") →
      downloadImage pil brand pname url raw = (make_image_filename brand pname (imgExt url), raw)) ∧
    (pathSuffix url = [] → imgExt url = (".jpg")) := by
  refine ⟨?_, ?_, ?_⟩
  · intro h
    have hd : downloadImage pil brand pname url raw =
        (String.mk ((extSplit (make_image_filename brand pname (imgExt url)).data).1 ++ pngSuffix),
          pil raw) := by
      simp [downloadImage, h]
    rw [hd]
    refine ⟨rfl, ?_⟩
    have hne := extSplit_fst_ne (make_image_filename brand pname (imgExt url)).data
      (make_image_filename_data_ne brand pname (imgExt url))
    exact congrArg Prod.snd (extSplit_append_png _ hne)
  · intro h
    simp [downloadImage, h]
  · intro h
    simp [imgExt, h]

/-- Witness for C9 on `.webp`, `.jpg` and suffix-less URLs. -/
theorem image_persistence_routing_witness :
    (downloadImage exPil ("B") ("N") ("http://host/p.webp") ([1, 2])).2 = exPil ([1, 2]) ∧
    (extSplit (downloadImage exPil ("B") ("N") ("http://host/p.webp") ([1, 2])).1.data).2 = pngSuffix ∧
    downloadImage exPil ("B") ("N") ("http://host/p.jpg") ([1, 2]) =
      (make_image_filename ("B") ("N") (imgExt ("http://host/p.jpg")), [1, 2]) ∧
    imgExt ("http://host/p") = (".jpg") := by
  have h1 := (image_persistence_routing exPil ("B") ("N") ("http://host/p.webp") ([1, 2])).1 (by decide)
  have h2 := (image_persistence_routing exPil ("B") ("N") ("http://host/p.jpg") ([1, 2])).2.1 (by decide)
  have h3 := (image_persistence_routing exPil ("B") ("N") ("http://host/p") ([1, 2])).2.2 (by decide)
  exact ⟨h1.1, h1.2, h2, h3⟩
